import Mathlib

/-!
Verification development for the ChaosSearch Terraform provider's
object-group read path (`client/operation_read_object_group.go` and the
`SetActive` marshaller).  The Go code is shallowly embedded: strings are
`List Char`, JSON documents are an inductive `Json` value type together
with an executable parser and renderer that model the behaviour of Go's
`encoding/json` on the shapes this code exercises, and each Go function
is translated into a Lean function of the same name.
-/

set_option autoImplicit false

namespace ChaosSearch

/-- Strings are modelled as lists of characters. -/
abbrev Str := List Char

/-- The `{` character (written via its code point). -/
def chLBrace : Char := Char.ofNat 123

/-- The `}` character (written via its code point). -/
def chRBrace : Char := Char.ofNat 125

/-- ASCII-case-insensitive character comparison, modelling the ASCII part of
Go `encoding/json`'s case-folding field-name match. -/
def foldCharEq (a b : Char) : Bool := a.toLower = b.toLower

/-- Case-insensitive name equality, modelling Go `encoding/json`'s
fold-insensitive match of JSON keys against struct field tags. -/
def nameFoldEq : Str → Str → Bool
  | [], [] => true
  | a :: as, b :: bs => foldCharEq a b && nameFoldEq as bs
  | _, _ => false

/-- `leadsWith p s` is true when `p` is an initial segment of `s`. -/
def leadsWith : Str → Str → Bool
  | [], _ => true
  | _ :: _, [] => false
  | p :: ps, c :: cs => p = c && leadsWith ps cs

/-- Substring test, modelling Go's `strings.Contains`. -/
def containsSub (hay pat : Str) : Bool :=
  match hay with
  | [] => pat.isEmpty
  | _ :: rest => leadsWith pat hay || containsSub rest pat

/-- JSON values.  Numbers keep their source lexeme, matching the fact that
Go's decoder re-parses the literal text when targeting an integer field. -/
inductive Json where
  | null : Json
  | bool : Bool → Json
  | num : Str → Json
  | str : Str → Json
  | arr : List Json → Json
  | obj : List (Str × Json) → Json

/-- JSON whitespace, as accepted by Go's scanner: space, tab, newline,
carriage return. -/
def isJsonWs (c : Char) : Bool :=
  c.toNat = 32 || c.toNat = 9 || c.toNat = 10 || c.toNat = 13

/-- Drop leading JSON whitespace. -/
def skipWs (input : Str) : Str :=
  match input with
  | ch :: tl => if isJsonWs ch then skipWs tl else input
  | [] => input

/-- Value of one hexadecimal digit of a `\u` escape (both letter cases). -/
def hexVal (c : Char) : Option Nat :=
  let n := c.toNat
  if 48 ≤ n ∧ n ≤ 57 then some (n - 48)
  else if 97 ≤ n ∧ n ≤ 102 then some (n - 87)
  else if 65 ≤ n ∧ n ≤ 70 then some (n - 55)
  else none

/-- Decode a `\uXXXX` code point.  Go combines surrogate pairs and replaces
unpaired surrogates with U+FFFD; none of the documents this repository
handles use surrogates, so a lone escape is decoded directly, with invalid
scalar values mapped to U+FFFD as Go does. -/
def charOfCode (n : Nat) : Char :=
  if n.isValidChar then Char.ofNat n else Char.ofNat 0xfffd

/-- Body of a JSON string literal (after the opening quote): returns the
decoded characters and the input past the closing quote.  Mirrors Go's
scanner: raw control characters are rejected, the escapes
`\" \\ \/ \b \f \n \r \t \uXXXX` are recognised. -/
def parseStringBody : Str → Option (Str × Str)
  | [] => none
  | c :: rest =>
    if c = '"' then some ([], rest)
    else if c = '\\' then
      match rest with
      | [] => none
      | e :: rest2 =>
        if e = '"' then (parseStringBody rest2).map (fun p => ('"' :: p.1, p.2))
        else if e = '\\' then (parseStringBody rest2).map (fun p => ('\\' :: p.1, p.2))
        else if e = '/' then (parseStringBody rest2).map (fun p => ('/' :: p.1, p.2))
        else if e = 'b' then (parseStringBody rest2).map (fun p => ('\x08' :: p.1, p.2))
        else if e = 'f' then (parseStringBody rest2).map (fun p => ('\x0c' :: p.1, p.2))
        else if e = 'n' then (parseStringBody rest2).map (fun p => ('\n' :: p.1, p.2))
        else if e = 'r' then (parseStringBody rest2).map (fun p => ('\r' :: p.1, p.2))
        else if e = 't' then (parseStringBody rest2).map (fun p => ('\t' :: p.1, p.2))
        else if e = 'u' then
          match rest2 with
          | h1 :: h2 :: h3 :: h4 :: rest3 =>
            match hexVal h1, hexVal h2, hexVal h3, hexVal h4 with
            | some a, some b, some c2, some d =>
              (parseStringBody rest3).map
                (fun p => (charOfCode (((a * 16 + b) * 16 + c2) * 16 + d) :: p.1, p.2))
            | _, _, _, _ => none
          | _ => none
        else none
    else if c.toNat < 0x20 then none
    else (parseStringBody rest).map (fun p => (c :: p.1, p.2))

/-- Longest run of decimal digits at the front of the input, paired with
what follows it. -/
def takeDigits (input : Str) : (Str × Str) :=
  match input with
  | ch :: tl =>
    if ch.isDigit then
      match takeDigits tl with
      | (ds, rem) => (ch :: ds, rem)
    else ([], input)
  | [] => ([], input)

/-- Parse a JSON number per the JSON grammar (as Go's scanner enforces it),
returning the lexeme and the remaining input. -/
def parseNum (s : Str) : Option (Json × Str) :=
  let signed := match s with
    | c :: r => if c = '-' then (true, r) else (false, s)
    | [] => (false, ([] : Str))
  match signed.2 with
  | [] => none
  | c :: r =>
    if ¬ c.isDigit then none
    else
      let intPart : Option (Str × Str) :=
        if c = '0' then some (['0'], r)
        else
          let p := takeDigits r
          some (c :: p.1, p.2)
      match intPart with
      | none => none
      | some (ip, r1) =>
        let fracced : Option (Str × Str) :=
          match r1 with
          | '.' :: r2 =>
            match takeDigits r2 with
            | ([], _) => none
            | (ds, r3) => some (ip ++ '.' :: ds, r3)
          | _ => some (ip, r1)
        match fracced with
        | none => none
        | some (ipf, r4) =>
          let exped : Option (Str × Str) :=
            match r4 with
            | e :: r5 =>
              if e = 'e' ∨ e = 'E' then
                let signedExp : (Str × Str) := match r5 with
                  | c2 :: r6 => if c2 = '+' ∨ c2 = '-' then ([e, c2], r6) else ([e], r5)
                  | [] => ([e], [])
                match takeDigits signedExp.2 with
                | ([], _) => none
                | (ds, r7) => some (ipf ++ signedExp.1 ++ ds, r7)
              else some (ipf, r4)
            | [] => some (ipf, r4)
          match exped with
          | none => none
          | some (lex, rest) =>
            some (Json.num (if signed.1 then '-' :: lex else lex), rest)

mutual

/-- Fueled recursive-descent parser for a JSON value.  The fuel only bounds
nesting/iteration; `parseJson` supplies more than enough for any input. -/
def parseVal : Nat → Str → Option (Json × Str)
  | 0, _ => none
  | Nat.succ fuel, s =>
    match skipWs s with
    | [] => none
    | c :: rest =>
      if c = '"' then (parseStringBody rest).map (fun p => (Json.str p.1, p.2))
      else if c = chLBrace then parseObjBody fuel rest
      else if c = '[' then parseArrBody fuel rest
      else if c = 't' then
        match rest with
        | 'r' :: 'u' :: 'e' :: r => some (Json.bool true, r)
        | _ => none
      else if c = 'f' then
        match rest with
        | 'a' :: 'l' :: 's' :: 'e' :: r => some (Json.bool false, r)
        | _ => none
      else if c = 'n' then
        match rest with
        | 'u' :: 'l' :: 'l' :: r => some (Json.null, r)
        | _ => none
      else parseNum (c :: rest)

/-- Array body, after the opening bracket. -/
def parseArrBody : Nat → Str → Option (Json × Str)
  | 0, _ => none
  | Nat.succ fuel, s =>
    match skipWs s with
    | ']' :: r => some (Json.arr [], r)
    | s1 => parseArrItems fuel s1 []

/-- Comma-separated array elements. -/
def parseArrItems : Nat → Str → List Json → Option (Json × Str)
  | 0, _, _ => none
  | Nat.succ fuel, s, acc =>
    match parseVal fuel s with
    | none => none
    | some (v, r) =>
      match skipWs r with
      | ',' :: r2 => parseArrItems fuel r2 (acc ++ [v])
      | ']' :: r2 => some (Json.arr (acc ++ [v]), r2)
      | _ => none

/-- Object body, after the opening brace. -/
def parseObjBody : Nat → Str → Option (Json × Str)
  | 0, _ => none
  | Nat.succ fuel, s =>
    match skipWs s with
    | c :: r =>
      if c = chRBrace then some (Json.obj [], r)
      else parseObjItems fuel (c :: r) []
    | [] => none

/-- Comma-separated `"key": value` object members. -/
def parseObjItems : Nat → Str → List (Str × Json) → Option (Json × Str)
  | 0, _, _ => none
  | Nat.succ fuel, s, acc =>
    match skipWs s with
    | '"' :: r =>
      match parseStringBody r with
      | none => none
      | some (k, r1) =>
        match skipWs r1 with
        | ':' :: r2 =>
          match parseVal fuel r2 with
          | none => none
          | some (v, r3) =>
            match skipWs r3 with
            | ',' :: r4 => parseObjItems fuel r4 (acc ++ [(k, v)])
            | c :: r4 =>
              if c = chRBrace then some (Json.obj (acc ++ [(k, v)]), r4)
              else none
            | [] => none
        | _ => none
    | _ => none

end

/-- Parse a complete JSON document: one value plus trailing whitespace,
as `json.Unmarshal` requires. -/
def parseJson (s : Str) : Option Json :=
  match parseVal (3 * s.length + 8) s with
  | none => none
  | some (j, rest) => if (skipWs rest).isEmpty then some j else none

/-- Hex digit for a value below 16 (lower case, as Go emits). -/
def hexDigit (n : Nat) : Char :=
  if n < 10 then Char.ofNat ('0'.toNat + n) else Char.ofNat ('a'.toNat + n - 10)

/-- Escape one character of a string being marshalled, following Go
`encoding/json`'s default (HTML-escaping) encoder. -/
def escapeChar (c : Char) : Str :=
  if c = '"' then ['\\', '"']
  else if c = '\\' then ['\\', '\\']
  else if c = '\n' then ['\\', 'n']
  else if c = '\r' then ['\\', 'r']
  else if c = '\t' then ['\\', 't']
  else if c = '<' then '\\' :: 'u' :: '0' :: '0' :: '3' :: 'c' :: []
  else if c = '>' then '\\' :: 'u' :: '0' :: '0' :: '3' :: 'e' :: []
  else if c = '&' then '\\' :: 'u' :: '0' :: '0' :: '2' :: '6' :: []
  else if c.toNat < 0x20 then
    '\\' :: 'u' :: '0' :: '0' :: hexDigit (c.toNat / 16) :: hexDigit (c.toNat % 16) :: []
  else if c.toNat = 0x2028 then '\\' :: 'u' :: '2' :: '0' :: '2' :: '8' :: []
  else if c.toNat = 0x2029 then '\\' :: 'u' :: '2' :: '0' :: '2' :: '9' :: []
  else [c]

/-- Marshal a string to a JSON string literal. -/
def renderStrLit (s : Str) : Str :=
  '"' :: (s.map escapeChar).flatten ++ ['"']

mutual

/-- Compact JSON rendering, as `json.Marshal` produces. -/
def renderJson : Json → Str
  | Json.null => ['n', 'u', 'l', 'l']
  | Json.bool true => ['t', 'r', 'u', 'e']
  | Json.bool false => ['f', 'a', 'l', 's', 'e']
  | Json.num lex => lex
  | Json.str s => renderStrLit s
  | Json.arr xs => '[' :: renderArr xs ++ [']']
  | Json.obj fs => chLBrace :: renderFields fs ++ [chRBrace]

/-- Render array elements, comma separated. -/
def renderArr : List Json → Str
  | [] => []
  | [x] => renderJson x
  | x :: y :: rest => renderJson x ++ ',' :: renderArr (y :: rest)

/-- Render object members, comma separated. -/
def renderFields : List (Str × Json) → Str
  | [] => []
  | [(k, v)] => renderStrLit k ++ ':' :: renderJson v
  | (k, v) :: p :: rest => renderStrLit k ++ ':' :: renderJson v ++ ',' :: renderFields (p :: rest)

end

/-! ### Key and message constants -/

/-- The substring that triggers the filter rewrite (`needle` in the source). -/
def needle : Str := "pattern".toList

def lexAND : Str := "AND".toList
def lexField : Str := "field".toList
def lexRegex : Str := "regex".toList
def lexPattern : Str := "pattern".toList
def lexStrictKey : Str := "strict".toList
def lexTypeKey : Str := "_type".toList
def lexArrayFlattenDepth : Str := "arrayFlattenDepth".toList
def lexKeepOriginal : Str := "keepOriginal".toList
def lexHorizontal : Str := "horizontal".toList
def lexOverall : Str := "overall".toList
def lexInclude : Str := "include".toList

def keyParent : Str := "cs3.parent".toList
def keyCompression : Str := "cs3.compression".toList
def keyLiveSqsArn : Str := "cs3.live-sqs-arn".toList
def keyDatasetFormat : Str := "cs3.dataset-format".toList
def keyPredicate : Str := "cs3.predicate".toList
def keyIndexRetention : Str := "cs3.index-retention".toList

def keyBucketName : Str := "BucketName".toList
def keyModelMode : Str := "ModelMode".toList

def errSyntax : Str := "json: syntax error".toList
def errType : Str := "json: cannot unmarshal value into Go value".toList
def errNotInt : Str := "json: cannot unmarshal number into Go value of type int".toList
def errNoTag : Str := "No tag found with key: ".toList
def errXmlWrap : Str := "Failed to unmarshal XML response body: ".toList
def errTagFetch : Str := "Failed to read bucket tagging: ".toList
def errDatasetFetch : Str := "Failed to GET dataset: ".toList

/-! ### Integer lexemes -/

def digitChar (n : Nat) : Char := Char.ofNat ('0'.toNat + n)

/-- Decimal rendering of a natural number. -/
def natLex (n : Nat) : Str :=
  if _h : n < 10 then [digitChar n]
  else natLex (n / 10) ++ [digitChar (n % 10)]
  decreasing_by exact Nat.div_lt_self (by omega) (by omega)

/-- Decimal rendering of an integer, as Go's `json.Marshal` emits an `int`. -/
def intLex : Int → Str
  | Int.ofNat m => natLex m
  | Int.negSucc m => '-' :: natLex (m + 1)

def digitsToNatAux : Nat → Str → Option Nat
  | acc, [] => some acc
  | acc, c :: cs =>
    if c.isDigit then digitsToNatAux (acc * 10 + (c.toNat - '0'.toNat)) cs else none

/-- Value of a non-empty all-digit string. -/
def digitsToNat : Str → Option Nat
  | [] => none
  | s => digitsToNatAux 0 s

/-- Decode a JSON number lexeme into a Go `int`, mirroring
`strconv.ParseInt` on the literal: an optional minus sign followed by
digits only, so fractional or exponent forms fail. -/
def decodeIntLex (lex : Str) : Except Str Int :=
  match lex with
  | '-' :: rest =>
    match digitsToNat rest with
    | some n => Except.ok (-(n : Int))
    | none => Except.error errNotInt
  | _ =>
    match digitsToNat lex with
    | some n => Except.ok ((n : Int))
    | none => Except.error errNotInt

/-! ### Scalar decode-into helpers

Each models `json.Unmarshal` decoding a JSON value into an existing Go
field: `null` leaves a string/bool/int field unchanged but resets a
pointer field to `nil`; a type mismatch is an error.  (Go saves the first
type error and keeps scanning; since every caller in this code only
branches on error being non-nil, fail-fast is observationally the same.) -/

def decodeStrInto (cur : Str) : Json → Except Str Str
  | Json.null => Except.ok cur
  | Json.str s => Except.ok s
  | _ => Except.error errType

def decodeBoolInto (cur : Bool) : Json → Except Str Bool
  | Json.null => Except.ok cur
  | Json.bool b => Except.ok b
  | _ => Except.error errType

def decodeIntInto (cur : Int) : Json → Except Str Int
  | Json.null => Except.ok cur
  | Json.num lex => decodeIntLex lex
  | _ => Except.error errType

def decodeOptIntInto : Option Int → Json → Except Str (Option Int)
  | _, Json.null => Except.ok none
  | _, Json.num lex => (decodeIntLex lex).map some
  | _, _ => Except.error errType

/-! ### The filter structs of `operation_read_object_group.go` -/

/-- The anonymous `regex` struct inside `InputFilter`. -/
structure InputRegex where
  pattern : Str
  strict : Bool

def zeroInputRegex : InputRegex := { pattern := [], strict := false }

/-- One element of `InputFilter.AND`. -/
structure InputFilterItem where
  field : Str
  regex : InputRegex

def zeroInputFilterItem : InputFilterItem := { field := [], regex := zeroInputRegex }

/-- Go struct `InputFilter`. -/
structure InputFilter where
  AND : List InputFilterItem

def zeroInputFilter : InputFilter := { AND := [] }

/-- One element of `DesiredFilter.AND`. -/
structure DesiredFilterItem where
  field : Str
  regex : Str

/-- Go struct `DesiredFilter`. -/
structure DesiredFilter where
  AND : List DesiredFilterItem

/-- Decode the fields of a JSON object into an `InputRegex`, key by key in
document order (later duplicates overwrite), with Go's fold-insensitive
field-name match; unknown keys are ignored. -/
def decodeInputRegexFields (cur : InputRegex) : List (Str × Json) → Except Str InputRegex
  | [] => Except.ok cur
  | (k, jv) :: rest =>
    if nameFoldEq k lexPattern then
      match decodeStrInto cur.pattern jv with
      | Except.error e => Except.error e
      | Except.ok p => decodeInputRegexFields { cur with pattern := p } rest
    else if nameFoldEq k lexStrictKey then
      match decodeBoolInto cur.strict jv with
      | Except.error e => Except.error e
      | Except.ok b => decodeInputRegexFields { cur with strict := b } rest
    else decodeInputRegexFields cur rest

def decodeInputRegexInto (cur : InputRegex) : Json → Except Str InputRegex
  | Json.null => Except.ok cur
  | Json.obj fields => decodeInputRegexFields cur fields
  | _ => Except.error errType

def decodeInputItemFields (cur : InputFilterItem) : List (Str × Json) → Except Str InputFilterItem
  | [] => Except.ok cur
  | (k, jv) :: rest =>
    if nameFoldEq k lexField then
      match decodeStrInto cur.field jv with
      | Except.error e => Except.error e
      | Except.ok f => decodeInputItemFields { cur with field := f } rest
    else if nameFoldEq k lexRegex then
      match decodeInputRegexInto cur.regex jv with
      | Except.error e => Except.error e
      | Except.ok r => decodeInputItemFields { cur with regex := r } rest
    else decodeInputItemFields cur rest

def decodeInputItemInto (cur : InputFilterItem) : Json → Except Str InputFilterItem
  | Json.null => Except.ok cur
  | Json.obj fields => decodeInputItemFields cur fields
  | _ => Except.error errType

/-- Decode a JSON array into the `AND` slice: each element is decoded into
a fresh zero-valued item.  (Go would merge element-wise into an already
populated slice when the `AND` key occurs twice; no document with
duplicate keys arises in any claim.) -/
def decodeInputItems : List Json → Except Str (List InputFilterItem)
  | [] => Except.ok []
  | j :: rest =>
    match decodeInputItemInto zeroInputFilterItem j with
    | Except.error e => Except.error e
    | Except.ok it =>
      match decodeInputItems rest with
      | Except.error e => Except.error e
      | Except.ok its => Except.ok (it :: its)

def decodeInputFilterFields (cur : InputFilter) : List (Str × Json) → Except Str InputFilter
  | [] => Except.ok cur
  | (k, jv) :: rest =>
    if nameFoldEq k lexAND then
      match jv with
      | Json.null => decodeInputFilterFields { cur with AND := [] } rest
      | Json.arr xs =>
        match decodeInputItems xs with
        | Except.error e => Except.error e
        | Except.ok its => decodeInputFilterFields { cur with AND := its } rest
      | _ => Except.error errType
    else decodeInputFilterFields cur rest

/-- `json.Unmarshal` of a document into `InputFilter`: a top-level `null`
is a no-op on the zero struct, an object is decoded field-wise, and any
other top-level value is a type error. -/
def decodeInputFilter : Json → Except Str InputFilter
  | Json.null => Except.ok zeroInputFilter
  | Json.obj fields => decodeInputFilterFields zeroInputFilter fields
  | _ => Except.error errType

/-- The conversion loop of `ConvertFilterJSON`: each input element yields a
desired element with the same `field` and with `regex` set to the nested
`pattern`; `strict` is dropped. -/
def convertFilterItems (items : List InputFilterItem) : List DesiredFilterItem :=
  items.map (fun it => { field := it.field, regex := it.regex.pattern })

/-- `json.Marshal` of a `DesiredFilter`.  A nil slice marshals as `null`,
and `desiredFilter.AND` stays nil exactly when the loop appended nothing,
i.e. when the list is empty. -/
def encodeDesiredFilter (f : DesiredFilter) : Json :=
  Json.obj [(lexAND,
    if f.AND.isEmpty then Json.null
    else Json.arr (f.AND.map (fun it =>
      Json.obj [(lexField, Json.str it.field), (lexRegex, Json.str it.regex)])))]

/-- Go `ConvertFilterJSON`: unmarshal the input into `InputFilter`,
convert element-wise, marshal the resulting `DesiredFilter`. -/
def ConvertFilterJSON (input : Str) : Except Str Str :=
  match parseJson input with
  | none => Except.error errSyntax
  | some j =>
    match decodeInputFilter j with
    | Except.error e => Except.error e
    | Except.ok f =>
      Except.ok (renderJson (encodeDesiredFilter { AND := convertFilterItems f.AND }))

/-! ### The tag-value codec -/

/-- A bucket tag set: ordered key/value pairs (duplicates not prevented). -/
abbrev TagSet := List (Str × Str)

/-- Go `findTagValue`: first tag whose key matches, in iteration order. -/
def findTagValue (tagging : TagSet) (key : Str) : Except Str Str :=
  match tagging with
  | [] => Except.error (errNoTag ++ key)
  | t :: rest => if t.1 = key then Except.ok t.2 else findTagValue rest key

/-- Go `readStringTagValue`: a missing key is swallowed (`return nil`)
leaving the destination unchanged; a found value replaces it. -/
def readStringTagValue (tagging : TagSet) (key : Str) (v : Str) : Except Str Str :=
  match findTagValue tagging key with
  | Except.error _ => Except.ok v
  | Except.ok s => Except.ok s

/-- `json.Unmarshal(valueAsBytes, v)`: parse the text, then decode into
the destination (`dec` models the reflection on the target's type). -/
def unmarshalInto {α : Type} (dec : α → Json → Except Str α) (v : α) (s : Str) :
    Except Str α :=
  match parseJson s with
  | none => Except.error errSyntax
  | some j => dec v j

/-- Go `readJSONTagValue`: a missing key is swallowed leaving the
destination unchanged; a found value is unmarshalled into it. -/
def readJSONTagValue {α : Type} (tagging : TagSet) (key : Str)
    (dec : α → Json → Except Str α) (v : α) : Except Str α :=
  match findTagValue tagging key with
  | Except.error _ => Except.ok v
  | Except.ok s => unmarshalInto dec v s

/-! ### The response-assembly structs -/

/-- The anonymous `filterObject` struct decoded from `cs3.dataset-format`. -/
structure FilterObject where
  type : Str
  pattern : Str
  arrayFlattenDepth : Option Int
  keepOriginal : Bool
  horizontal : Bool

def zeroFilterObject : FilterObject :=
  { type := [], pattern := [], arrayFlattenDepth := none,
    keepOriginal := false, horizontal := false }

def decodeFilterObjectFields (cur : FilterObject) : List (Str × Json) → Except Str FilterObject
  | [] => Except.ok cur
  | (k, jv) :: rest =>
    if nameFoldEq k lexTypeKey then
      match decodeStrInto cur.type jv with
      | Except.error e => Except.error e
      | Except.ok s => decodeFilterObjectFields { cur with type := s } rest
    else if nameFoldEq k lexPattern then
      match decodeStrInto cur.pattern jv with
      | Except.error e => Except.error e
      | Except.ok s => decodeFilterObjectFields { cur with pattern := s } rest
    else if nameFoldEq k lexArrayFlattenDepth then
      match decodeOptIntInto cur.arrayFlattenDepth jv with
      | Except.error e => Except.error e
      | Except.ok d => decodeFilterObjectFields { cur with arrayFlattenDepth := d } rest
    else if nameFoldEq k lexKeepOriginal then
      match decodeBoolInto cur.keepOriginal jv with
      | Except.error e => Except.error e
      | Except.ok b => decodeFilterObjectFields { cur with keepOriginal := b } rest
    else if nameFoldEq k lexHorizontal then
      match decodeBoolInto cur.horizontal jv with
      | Except.error e => Except.error e
      | Except.ok b => decodeFilterObjectFields { cur with horizontal := b } rest
    else decodeFilterObjectFields cur rest

def decodeFilterObjectInto (cur : FilterObject) : Json → Except Str FilterObject
  | Json.null => Except.ok cur
  | Json.obj fields => decodeFilterObjectFields cur fields
  | _ => Except.error errType

/-- The anonymous `retentionObject` struct decoded from `cs3.index-retention`. -/
structure RetentionObject where
  overall : Int

def zeroRetentionObject : RetentionObject := { overall := 0 }

def decodeRetentionFields (cur : RetentionObject) : List (Str × Json) → Except Str RetentionObject
  | [] => Except.ok cur
  | (k, jv) :: rest =>
    if nameFoldEq k lexOverall then
      match decodeIntInto cur.overall jv with
      | Except.error e => Except.error e
      | Except.ok n => decodeRetentionFields { cur with overall := n } rest
    else decodeRetentionFields cur rest

def decodeRetentionInto (cur : RetentionObject) : Json → Except Str RetentionObject
  | Json.null => Except.ok cur
  | Json.obj fields => decodeRetentionFields cur fields
  | _ => Except.error errType

/-- Go struct `ReadObjectGroupResponse` (fields as declared plus the ones
assigned by the read path: `ColumnTypes`, `KeepOriginal`, `Horizontal`). -/
structure ReadObjectGroupResponse where
  Compression : Str
  FilterJSON : Str
  Format : Str
  Pattern : Str
  LiveEventsSqsArn : Str
  PartitionBy : Str
  SourceBucket : Str
  IndexRetention : Int
  ArrayFlattenDepth : Option Int
  KeepOriginal : Bool
  Horizontal : Bool
  ColumnRenames : List (Str × Str)
  ColumnSelection : List (List (Str × Json))
  ColumnTypes : List (Str × Str)

/-- The Go zero value of `ReadObjectGroupResponse`. -/
def zeroResponse : ReadObjectGroupResponse :=
  { Compression := [], FilterJSON := [], Format := [], Pattern := [],
    LiveEventsSqsArn := [], PartitionBy := [], SourceBucket := [],
    IndexRetention := 0, ArrayFlattenDepth := none, KeepOriginal := false,
    Horizontal := false, ColumnRenames := [], ColumnSelection := [],
    ColumnTypes := [] }

/-- The rewrite step applied to the predicate read from `cs3.predicate`:
`strings.Contains(inputFilterJSON, needle)` guards `ConvertFilterJSON`. -/
def rewritePredicate (s : Str) : Except Str Str :=
  if containsSub s needle then ConvertFilterJSON s else Except.ok s

/-- Go `mapBucketTaggingToResponse`, with each tag read and its error
check laid out exactly as in the source. -/
def mapBucketTaggingToResponse (tagging : TagSet) : Except Str ReadObjectGroupResponse :=
  match readStringTagValue tagging keyParent zeroResponse.SourceBucket with
  | Except.error e => Except.error e
  | Except.ok sourceBucket =>
  match readStringTagValue tagging keyCompression zeroResponse.Compression with
  | Except.error e => Except.error e
  | Except.ok compression =>
  match readStringTagValue tagging keyLiveSqsArn zeroResponse.LiveEventsSqsArn with
  | Except.error e => Except.error e
  | Except.ok liveSqs =>
  match readJSONTagValue tagging keyDatasetFormat decodeFilterObjectInto zeroFilterObject with
  | Except.error e => Except.error e
  | Except.ok fo =>
  match readStringTagValue tagging keyPredicate zeroResponse.FilterJSON with
  | Except.error e => Except.error e
  | Except.ok inputFilterJSON =>
  match rewritePredicate inputFilterJSON with
  | Except.error e => Except.error e
  | Except.ok filterJSON =>
  match readJSONTagValue tagging keyIndexRetention decodeRetentionInto zeroRetentionObject with
  | Except.error e => Except.error e
  | Except.ok ro =>
    Except.ok { zeroResponse with
      SourceBucket := sourceBucket
      Compression := compression
      LiveEventsSqsArn := liveSqs
      Format := fo.type
      Pattern := fo.pattern
      ArrayFlattenDepth := fo.arrayFlattenDepth
      KeepOriginal := fo.keepOriginal
      Horizontal := fo.horizontal
      FilterJSON := filterJSON
      IndexRetention := ro.overall }

/-! ### The dataset-description endpoint -/

/-- The `options` part of the dataset-description response. Go's
`map[string]string` / `map[string]interface{}` are modelled as
association lists with the usual unique-key reading. -/
structure DatasetOptions where
  colRenames : List (Str × Str)
  colSelection : List (List (Str × Json))
  colTypes : List (Str × Str)

/-- The anonymous `getDatasetResp` struct. -/
structure GetDatasetResp where
  partitionBy : Str
  options : DatasetOptions

/-- First value under a key in a string→Json map. -/
def mapLookup (m : List (Str × Json)) (k : Str) : Option Json :=
  match m with
  | [] => none
  | p :: rest => if p.1 = k then some p.2 else mapLookup rest k

/-- Map update `m[k] = v`: replace an existing binding or append one. -/
def mapInsert (m : List (Str × Json)) (k : Str) (v : Json) : List (Str × Json) :=
  match m with
  | [] => [(k, v)]
  | p :: rest => if p.1 = k then (k, v) :: rest else p :: mapInsert rest k v

/-- The column-selection quickfix: when the list is non-empty and its
first element has no `include` key, set `include = false` on that first
element only. -/
def normalizeColumnSelection (sel : List (List (Str × Json))) : List (List (Str × Json)) :=
  match sel with
  | [] => []
  | m :: rest =>
    if (mapLookup m lexInclude).isSome then m :: rest
    else mapInsert m lexInclude (Json.bool false) :: rest

/-- Go `readAttributesFromDatasetEndpoint`.  The HTTP round trip and JSON
body unmarshalling are modelled by the `fetched` parameter: transport or
decode failure arrives as `Except.error`. -/
def readAttributesFromDatasetEndpoint (fetched : Except Str GetDatasetResp)
    (resp : ReadObjectGroupResponse) : Except Str ReadObjectGroupResponse :=
  match fetched with
  | Except.error e => Except.error (errDatasetFetch ++ e)
  | Except.ok d =>
    Except.ok { resp with
      PartitionBy := d.partitionBy
      ColumnRenames := d.options.colRenames
      ColumnSelection := normalizeColumnSelection d.options.colSelection
      ColumnTypes := d.options.colTypes }

/-- Go `readAttributesFromBucketTagging`: the `GetBucketTagging` call is
modelled by the `fetched` parameter; a mapping failure is wrapped with
the source's message. -/
def readAttributesFromBucketTagging (fetched : Except Str TagSet) :
    Except Str ReadObjectGroupResponse :=
  match fetched with
  | Except.error e => Except.error (errTagFetch ++ e)
  | Except.ok tagging =>
    match mapBucketTaggingToResponse tagging with
    | Except.error e => Except.error (errXmlWrap ++ e)
    | Except.ok r => Except.ok r

/-- Go `ReadObjectGroup`: tagging attributes first, then dataset
attributes; the first failure aborts and nothing is returned. -/
def ReadObjectGroup (taggingFetch : Except Str TagSet)
    (datasetFetch : Except Str GetDatasetResp) : Except Str ReadObjectGroupResponse :=
  match readAttributesFromBucketTagging taggingFetch with
  | Except.error e => Except.error e
  | Except.ok r => readAttributesFromDatasetEndpoint datasetFetch r

/-! ### `SetActive` marshalling -/

/-- The request consumed by `SetActive` (fields as used by the source). -/
structure SetActiveRequest where
  ObjectGroupName : Str
  Active : Bool

/-- Lexicographic byte order on strings, used because `json.Marshal`
emits Go map keys in sorted order. -/
def strLt : Str → Str → Bool
  | [], [] => false
  | [], _ :: _ => true
  | _ :: _, [] => false
  | a :: as, b :: bs => if a < b then true else if b < a then false else strLt as bs

def sortInsertField (p : Str × Json) : List (Str × Json) → List (Str × Json)
  | [] => [p]
  | q :: rest => if strLt p.1 q.1 then p :: q :: rest else q :: sortInsertField p rest

def sortFields : List (Str × Json) → List (Str × Json)
  | [] => []
  | p :: rest => sortInsertField p (sortFields rest)

/-- The `body` map built by `marshalSetActiveRequest`, with `ModelMode`
already resolved from `req.Active` as in the source's `if`/`else`. -/
def setActiveBody (req : SetActiveRequest) : List (Str × Json) :=
  [(keyBucketName, Json.str req.ObjectGroupName),
   (keyModelMode, Json.num (intLex (if req.Active then 0 else -1)))]

/-- Go `marshalSetActiveRequest`: `json.Marshal` of the body map
(`json.Marshal` of such a map cannot fail, so the result is always ok). -/
def marshalSetActiveRequest (req : SetActiveRequest) : Except Str Str :=
  Except.ok (renderJson (Json.obj (sortFields (setActiveBody req))))

/-! ### Derived forms used in statements -/

/-- The value a `readStringTagValue` call leaves in its destination:
the tag's value when found, the previous contents otherwise. -/
def tagOr (tagging : TagSet) (key v : Str) : Str :=
  match findTagValue tagging key with
  | Except.ok s => s
  | Except.error _ => v

/-- The string produced by a successful `ConvertFilterJSON` run on a
document that decoded to the filter `f`. -/
def rewriteOutput (f : InputFilter) : Str :=
  renderJson (encodeDesiredFilter { AND := convertFilterItems f.AND })

/-- The response record `mapBucketTaggingToResponse` builds when every
step succeeds, with `fo`, `fj`, `ro` the decoded dataset-format object,
the post-rewrite predicate, and the decoded retention object. -/
def assembledResponse (tagging : TagSet) (fo : FilterObject) (fj : Str)
    (ro : RetentionObject) : ReadObjectGroupResponse :=
  { zeroResponse with
    SourceBucket := tagOr tagging keyParent zeroResponse.SourceBucket
    Compression := tagOr tagging keyCompression zeroResponse.Compression
    LiveEventsSqsArn := tagOr tagging keyLiveSqsArn zeroResponse.LiveEventsSqsArn
    Format := fo.type
    Pattern := fo.pattern
    ArrayFlattenDepth := fo.arrayFlattenDepth
    KeepOriginal := fo.keepOriginal
    Horizontal := fo.horizontal
    FilterJSON := fj
    IndexRetention := ro.overall }

/-! ### Concrete sample documents (used by witnesses and counterexamples) -/

/-- The Input-Shape example from the source's QUICKFIX comment. -/
def c1Input : Str :=
  "\x7b\"AND\":[\x7b\"field\":\"key\",\"regex\":\x7b\"pattern\":\".*\",\"strict\":true\x7d\x7d]\x7d".toList

/-- The parse of `c1Input`. -/
def c1Json : Json :=
  Json.obj [("AND".toList, Json.arr [Json.obj
    [("field".toList, Json.str ("key".toList)),
     ("regex".toList, Json.obj
       [("pattern".toList, Json.str (".*".toList)),
        ("strict".toList, Json.bool true)])]])]

/-- The decode of `c1Json`. -/
def c1Filter : InputFilter :=
  { AND := [{ field := "key".toList, regex := { pattern := ".*".toList, strict := true } }] }

/-- Valid JSON that contains the needle but is nothing like the Input
Shape: a one-key object with an unknown key. -/
def c2CexInput : Str := "\x7b\"foo\":\"pattern\"\x7d".toList

/-- The parse of `c2CexInput`: no `AND` member at all. -/
def c2CexJson : Json := Json.obj [("foo".toList, Json.str ("pattern".toList))]

/-- What `ConvertFilterJSON` returns for any input that decodes to an
empty `AND` list: Go marshals the never-appended nil slice as `null`. -/
def andNullText : Str := "\x7b\"AND\":null\x7d".toList

/-- Predicate text that contains the needle but is not valid JSON. -/
def c2BadInput : Str := "\x7b\"pattern\" oops".toList

/-- An Input-Shape document whose `pattern` value is itself the word
`pattern`, so the rewrite's output still contains the needle. -/
def c3Input : Str :=
  "\x7b\"AND\":[\x7b\"field\":\"key\",\"regex\":\x7b\"pattern\":\"pattern\",\"strict\":true\x7d\x7d]\x7d".toList

/-- The parse of `c3Input`. -/
def c3Json : Json :=
  Json.obj [("AND".toList, Json.arr [Json.obj
    [("field".toList, Json.str ("key".toList)),
     ("regex".toList, Json.obj
       [("pattern".toList, Json.str ("pattern".toList)),
        ("strict".toList, Json.bool true)])]])]

/-- The decode of `c3Json`. -/
def c3Filter : InputFilter :=
  { AND := [{ field := "key".toList,
              regex := { pattern := "pattern".toList, strict := true } }] }

/-- The rewrite's output for `c3Input`; it still contains `pattern`. -/
def c3Output : Str :=
  "\x7b\"AND\":[\x7b\"field\":\"key\",\"regex\":\"pattern\"\x7d]\x7d".toList

/-- A Desired-Shape document with no occurrence of the needle. -/
def c4Doc : DesiredFilter :=
  { AND := [{ field := "key".toList, regex := ".*".toList }] }

/-- Its rendered text. -/
def c4Text : Str :=
  "\x7b\"AND\":[\x7b\"field\":\"key\",\"regex\":\".*\"\x7d]\x7d".toList

/-- A predicate value that is not JSON at all and has no needle. -/
def c10Text : Str := "\x7bnot json, no needle".toList

/-! ## Helper lemmas -/

theorem readStringTagValue_eq (tagging : TagSet) (key v : Str) :
    readStringTagValue tagging key v = Except.ok (tagOr tagging key v) := by
  unfold readStringTagValue tagOr
  cases findTagValue tagging key <;> rfl

theorem tagOr_of_found (tagging : TagSet) (key v s : Str)
    (h : findTagValue tagging key = Except.ok s) : tagOr tagging key v = s := by
  unfold tagOr
  rw [h]

theorem findTagValue_absent (tagging : TagSet) (key : Str)
    (h : ∀ t ∈ tagging, t.1 ≠ key) :
    findTagValue tagging key = Except.error (errNoTag ++ key) := by
  induction tagging with
  | nil => rfl
  | cons t rest ih =>
    have h1 : t.1 ≠ key := h t (List.mem_cons_self t rest)
    simp only [findTagValue, if_neg h1]
    exact ih (fun u hu => h u (List.mem_cons_of_mem t hu))

theorem mapLookup_insert_self (m : List (Str × Json)) (k : Str) (v : Json) :
    mapLookup (mapInsert m k v) k = some v := by
  induction m with
  | nil => simp [mapInsert, mapLookup]
  | cons p rest ih =>
    by_cases h : p.1 = k
    · simp [mapInsert, mapLookup, h]
    · simp [mapInsert, mapLookup, h, ih]

/-- When every step succeeds, `mapBucketTaggingToResponse` returns the
assembled record. -/
theorem mapBucketTagging_ok (tagging : TagSet) (fo : FilterObject)
    (ro : RetentionObject) (s fj : Str)
    (hfmt : readJSONTagValue tagging keyDatasetFormat decodeFilterObjectInto
      zeroFilterObject = Except.ok fo)
    (hfind : findTagValue tagging keyPredicate = Except.ok s)
    (hrw : rewritePredicate s = Except.ok fj)
    (hret : readJSONTagValue tagging keyIndexRetention decodeRetentionInto
      zeroRetentionObject = Except.ok ro) :
    mapBucketTaggingToResponse tagging = Except.ok (assembledResponse tagging fo fj ro) := by
  simp only [mapBucketTaggingToResponse, readStringTagValue_eq, hfmt, hret,
    tagOr_of_found tagging keyPredicate zeroResponse.FilterJSON s hfind, hrw]
  rfl

/-- When the predicate rewrite fails, `mapBucketTaggingToResponse`
returns that error. -/
theorem mapBucketTagging_err (tagging : TagSet) (fo : FilterObject) (s e : Str)
    (hfmt : readJSONTagValue tagging keyDatasetFormat decodeFilterObjectInto
      zeroFilterObject = Except.ok fo)
    (hfind : findTagValue tagging keyPredicate = Except.ok s)
    (hrw : rewritePredicate s = Except.error e) :
    mapBucketTaggingToResponse tagging = Except.error e := by
  simp only [mapBucketTaggingToResponse, readStringTagValue_eq, hfmt,
    tagOr_of_found tagging keyPredicate zeroResponse.FilterJSON s hfind, hrw]

/-! ## Claim theorems -/

/-- C5: when the dataset response's column-selection list is non-empty,
the assembler patches exactly its first element: if that element lacks an
`include` key, `include = false` is injected (and is then present with
value `false`); if it already has one it is left unchanged; the remaining
elements are passed through untouched. -/
theorem readAttributesFromDatasetEndpoint_include_patch
    (d : GetDatasetResp) (resp : ReadObjectGroupResponse)
    (m : List (Str × Json)) (rest : List (List (Str × Json)))
    (hsel : d.options.colSelection = m :: rest) :
    readAttributesFromDatasetEndpoint (Except.ok d) resp =
      Except.ok { resp with
        PartitionBy := d.partitionBy
        ColumnRenames := d.options.colRenames
        ColumnSelection :=
          (if (mapLookup m lexInclude).isSome then m
           else mapInsert m lexInclude (Json.bool false)) :: rest
        ColumnTypes := d.options.colTypes }
    ∧ mapLookup (mapInsert m lexInclude (Json.bool false)) lexInclude
        = some (Json.bool false) := by
  constructor
  · simp only [readAttributesFromDatasetEndpoint, normalizeColumnSelection, hsel]
    split <;> rfl
  · exact mapLookup_insert_self m lexInclude (Json.bool false)

/-- C5 witness: a whitelist selection with no `include` key gains
`include: false` in the assembled attribute. -/
theorem readAttributesFromDatasetEndpoint_include_patch_witness :
    readAttributesFromDatasetEndpoint
      (Except.ok { partitionBy := [],
                   options := { colRenames := [],
                                colSelection := [[("type".toList, Json.str ("whitelist".toList))]],
                                colTypes := [] } }) zeroResponse =
      Except.ok { zeroResponse with
        PartitionBy := []
        ColumnRenames := []
        ColumnSelection :=
          (if (mapLookup [("type".toList, Json.str ("whitelist".toList))] lexInclude).isSome
           then [("type".toList, Json.str ("whitelist".toList))]
           else mapInsert [("type".toList, Json.str ("whitelist".toList))] lexInclude (Json.bool false)) ::
            ([] : List (List (Str × Json)))
        ColumnTypes := [] }
    ∧ mapLookup (mapInsert [("type".toList, Json.str ("whitelist".toList))] lexInclude (Json.bool false))
        lexInclude = some (Json.bool false) :=
  readAttributesFromDatasetEndpoint_include_patch
    { partitionBy := [],
      options := { colRenames := [],
                   colSelection := [[("type".toList, Json.str ("whitelist".toList))]],
                   colTypes := [] } }
    zeroResponse [("type".toList, Json.str ("whitelist".toList))] [] rfl

/-- C6: when the requested key is present in the tag set but its value
does not unmarshal into the target shape (invalid JSON text or a decode
mismatch), `readJSONTagValue` returns that error rather than absorbing
the malformed value. -/
theorem readJSONTagValue_error_on_bad_value {α : Type} (tagging : TagSet)
    (key s : Str) (dec : α → Json → Except Str α) (v : α) (e : Str)
    (hfind : findTagValue tagging key = Except.ok s)
    (hbad : unmarshalInto dec v s = Except.error e) :
    readJSONTagValue tagging key dec v = Except.error e := by
  unfold readJSONTagValue
  rw [hfind]
  exact hbad

/-- C6 witness: a present `cs3.index-retention` tag whose value is not
valid JSON makes `readJSONTagValue` fail. -/
theorem readJSONTagValue_error_on_bad_value_witness :
    readJSONTagValue [(keyIndexRetention, "\x7boops".toList)] keyIndexRetention
      decodeRetentionInto zeroRetentionObject = Except.error errSyntax :=
  readJSONTagValue_error_on_bad_value [(keyIndexRetention, "\x7boops".toList)]
    keyIndexRetention ("\x7boops".toList) decodeRetentionInto zeroRetentionObject
    errSyntax rfl rfl

/-- C7: when the requested key is absent from the tag set,
`readStringTagValue` returns successfully and leaves the destination at
its previous (zero) value. -/
theorem readStringTagValue_absent_ok (tagging : TagSet) (key v : Str)
    (h : ∀ t ∈ tagging, t.1 ≠ key) :
    readStringTagValue tagging key v = Except.ok v := by
  unfold readStringTagValue
  rw [findTagValue_absent tagging key h]

/-- C7 witness: looking up `cs3.compression` in a tag set that only has
`cs3.parent` succeeds and keeps the zero value. -/
theorem readStringTagValue_absent_ok_witness :
    readStringTagValue [(keyParent, "bucket".toList)] keyCompression [] = Except.ok [] :=
  readStringTagValue_absent_ok [(keyParent, "bucket".toList)] keyCompression []
    (by decide)

/-- C8: with duplicate keys in the tag set, `findTagValue` returns the
value of the first tag (in iteration order) whose key matches. -/
theorem findTagValue_first_of_dup (pre : TagSet) (key v : Str) (rest : TagSet)
    (hpre : ∀ t ∈ pre, t.1 ≠ key) :
    findTagValue (pre ++ (key, v) :: rest) key = Except.ok v := by
  induction pre with
  | nil => simp [findTagValue]
  | cons t ts ih =>
    have h1 : t.1 ≠ key := hpre t (List.mem_cons_self t ts)
    simp only [List.cons_append, findTagValue, if_neg h1]
    exact ih (fun u hu => hpre u (List.mem_cons_of_mem t hu))

/-- C8 witness: two tags named `k` — the first one's value wins. -/
theorem findTagValue_first_of_dup_witness :
    findTagValue [("k".toList, "a".toList), ("k".toList, "b".toList)] ("k".toList)
      = Except.ok ("a".toList) := by
  simpa using findTagValue_first_of_dup [] ("k".toList) ("a".toList)
    [("k".toList, "b".toList)] (by simp)

/-- C9: the marshalled `SetActive` body is the JSON object with
`BucketName` equal to the object-group name and `ModelMode` equal to `0`
when `active` is true and `-1` when it is false. -/
theorem marshalSetActiveRequest_modelMode (req : SetActiveRequest) :
    marshalSetActiveRequest req =
      Except.ok (renderJson (Json.obj
        [(keyBucketName, Json.str req.ObjectGroupName),
         (keyModelMode, Json.num (if req.Active then intLex 0 else intLex (-1)))]))
    ∧ mapLookup (setActiveBody req) keyModelMode
        = some (Json.num (if req.Active then intLex 0 else intLex (-1)))
    ∧ mapLookup (setActiveBody req) keyBucketName
        = some (Json.str req.ObjectGroupName) := by
  obtain ⟨n, a⟩ := req
  cases a <;> exact ⟨rfl, rfl, rfl⟩

/-- C1: on any predicate document the decoder accepts as the Input Shape,
`ConvertFilterJSON` succeeds and returns exactly the marshalled
`DesiredFilter` obtained by the element-wise conversion, which has the
same element count and order, the same `field` values, and `regex` equal
to the corresponding input `pattern`; `strict` does not occur in the
converted items at all. -/
theorem ConvertFilterJSON_input_shape (s : Str) (j : Json) (f : InputFilter)
    (hp : parseJson s = some j) (hd : decodeInputFilter j = Except.ok f) :
    ConvertFilterJSON s = Except.ok (rewriteOutput f)
    ∧ (convertFilterItems f.AND).length = f.AND.length
    ∧ (convertFilterItems f.AND).map DesiredFilterItem.field
        = f.AND.map InputFilterItem.field
    ∧ (convertFilterItems f.AND).map DesiredFilterItem.regex
        = f.AND.map (fun it => it.regex.pattern) := by
  refine ⟨?_, ?_, ?_, ?_⟩
  · simp only [ConvertFilterJSON, hp, hd, rewriteOutput]
  · simp [convertFilterItems]
  · simp [convertFilterItems]
  · simp [convertFilterItems]

/-- C1 witness: the QUICKFIX example document converts as stated. -/
theorem ConvertFilterJSON_input_shape_witness :
    ConvertFilterJSON c1Input = Except.ok (rewriteOutput c1Filter)
    ∧ (convertFilterItems c1Filter.AND).length = c1Filter.AND.length
    ∧ (convertFilterItems c1Filter.AND).map DesiredFilterItem.field
        = c1Filter.AND.map InputFilterItem.field
    ∧ (convertFilterItems c1Filter.AND).map DesiredFilterItem.regex
        = c1Filter.AND.map (fun it => it.regex.pattern) :=
  ConvertFilterJSON_input_shape c1Input c1Json c1Filter rfl rfl

/-- C2 counterexample: `\x7b"foo":"pattern"\x7d` triggers the rewrite and
is valid JSON of a completely different shape (its only member is an
unknown key, no `AND` list), yet `ConvertFilterJSON` does not fail: Go's
decoder ignores unknown keys and leaves missing fields at their zero
values, so the rewrite silently succeeds with `\x7b"AND":null\x7d`. -/
theorem ConvertFilterJSON_accepts_non_input_shape :
    containsSub c2CexInput needle = true
    ∧ parseJson c2CexInput = some c2CexJson
    ∧ ConvertFilterJSON c2CexInput = Except.ok andNullText :=
  ⟨rfl, rfl, rfl⟩

/-- C2 amended: when the predicate text contains `pattern` and
`ConvertFilterJSON` fails on it — which happens exactly when the text is
not valid JSON or a member has the wrong type for the Input Shape, but
not when valid JSON merely lacks the expected keys — the whole attribute
assembly aborts: `mapBucketTaggingToResponse` returns the error and
`ReadObjectGroup` propagates it (wrapped with the source's message) to
the caller with no partial result. -/
theorem rewrite_failure_aborts_read (tagging : TagSet)
    (dsFetch : Except Str GetDatasetResp) (s e : Str) (fo : FilterObject)
    (hfind : findTagValue tagging keyPredicate = Except.ok s)
    (htr : containsSub s needle = true)
    (hfmt : readJSONTagValue tagging keyDatasetFormat decodeFilterObjectInto
      zeroFilterObject = Except.ok fo)
    (hconv : ConvertFilterJSON s = Except.error e) :
    mapBucketTaggingToResponse tagging = Except.error e
    ∧ ReadObjectGroup (Except.ok tagging) dsFetch = Except.error (errXmlWrap ++ e) := by
  have hrw : rewritePredicate s = Except.error e := by
    simp [rewritePredicate, htr, hconv]
  have hmap := mapBucketTagging_err tagging fo s e hfmt hfind hrw
  refine ⟨hmap, ?_⟩
  simp only [ReadObjectGroup, readAttributesFromBucketTagging, hmap]

/-- C2 witness: a tag set whose predicate contains `pattern` but is not
valid JSON aborts the whole read with the propagated error. -/
theorem rewrite_failure_aborts_read_witness :
    mapBucketTaggingToResponse [(keyPredicate, c2BadInput)] = Except.error errSyntax
    ∧ ReadObjectGroup (Except.ok [(keyPredicate, c2BadInput)]) (Except.error [])
        = Except.error (errXmlWrap ++ errSyntax) :=
  rewrite_failure_aborts_read [(keyPredicate, c2BadInput)] (Except.error [])
    c2BadInput errSyntax zeroFilterObject rfl rfl rfl rfl

/-- C3 counterexample: the Input-Shape document whose `pattern` value is
the word `pattern` itself.  The rewrite's output still contains the
needle, so the heuristic re-triggers on it and a second application
fails with a decode error instead of being a no-op. -/
theorem rewrite_output_retriggers :
    parseJson c3Input = some c3Json
    ∧ decodeInputFilter c3Json = Except.ok c3Filter
    ∧ rewritePredicate c3Input = Except.ok c3Output
    ∧ containsSub c3Output needle = true
    ∧ rewritePredicate c3Output = Except.error errType :=
  ⟨rfl, rfl, rfl, rfl, rfl⟩

/-- C3 amended: for an Input-Shape document, the rewrite is idempotent
provided its output does not itself contain the substring `pattern`
(i.e. no `field` or `pattern` value smuggles the needle in): the output
does not re-trigger the heuristic and a second application returns it
unchanged.  Without that proviso idempotence fails — see the
counterexample. -/
theorem rewrite_idempotent_when_output_needle_free (s : Str) (j : Json)
    (f : InputFilter)
    (hp : parseJson s = some j) (hd : decodeInputFilter j = Except.ok f)
    (hout : containsSub (rewriteOutput f) needle = false) :
    ConvertFilterJSON s = Except.ok (rewriteOutput f)
    ∧ rewritePredicate (rewriteOutput f) = Except.ok (rewriteOutput f) := by
  constructor
  · simp only [ConvertFilterJSON, hp, hd, rewriteOutput]
  · simp [rewritePredicate, hout]

/-- C3 witness: the QUICKFIX example's output has no needle, so the
second application passes it through unchanged. -/
theorem rewrite_idempotent_when_output_needle_free_witness :
    ConvertFilterJSON c1Input = Except.ok (rewriteOutput c1Filter)
    ∧ rewritePredicate (rewriteOutput c1Filter) = Except.ok (rewriteOutput c1Filter) :=
  rewrite_idempotent_when_output_needle_free c1Input c1Json c1Filter rfl rfl rfl

/-- C4: a predicate document already in the Desired Shape (the marshalled
form of a `DesiredFilter`) whose text does not contain `pattern` does not
trigger the rewrite: the assembly succeeds and the document lands in the
`FilterJSON` attribute unchanged. -/
theorem desired_shape_passes_through (tagging : TagSet) (d : DesiredFilter)
    (s : Str) (fo : FilterObject) (ro : RetentionObject)
    (_hs : s = renderJson (encodeDesiredFilter d))
    (hnop : containsSub s needle = false)
    (hfind : findTagValue tagging keyPredicate = Except.ok s)
    (hfmt : readJSONTagValue tagging keyDatasetFormat decodeFilterObjectInto
      zeroFilterObject = Except.ok fo)
    (hret : readJSONTagValue tagging keyIndexRetention decodeRetentionInto
      zeroRetentionObject = Except.ok ro) :
    mapBucketTaggingToResponse tagging = Except.ok (assembledResponse tagging fo s ro)
    ∧ (assembledResponse tagging fo s ro).FilterJSON = s := by
  have hrw : rewritePredicate s = Except.ok s := by
    simp [rewritePredicate, hnop]
  exact ⟨mapBucketTagging_ok tagging fo ro s s hfmt hfind hrw hret, rfl⟩

/-- C4 witness: a Desired-Shape predicate with no needle passes through. -/
theorem desired_shape_passes_through_witness :
    mapBucketTaggingToResponse [(keyPredicate, c4Text)]
      = Except.ok (assembledResponse [(keyPredicate, c4Text)] zeroFilterObject
          c4Text zeroRetentionObject)
    ∧ (assembledResponse [(keyPredicate, c4Text)] zeroFilterObject c4Text
        zeroRetentionObject).FilterJSON = c4Text :=
  desired_shape_passes_through [(keyPredicate, c4Text)] c4Doc c4Text
    zeroFilterObject zeroRetentionObject rfl rfl rfl rfl rfl

/-- C10: a present `cs3.predicate` value whose text does not contain
`pattern` is stored into `FilterJSON` verbatim, with no JSON parsing or
shape validation of any kind: the assembly succeeds whatever the value
is, and returns it to the caller unchanged. -/
theorem predicate_verbatim_without_needle (tagging : TagSet) (s : Str)
    (fo : FilterObject) (ro : RetentionObject)
    (hfind : findTagValue tagging keyPredicate = Except.ok s)
    (hnop : containsSub s needle = false)
    (hfmt : readJSONTagValue tagging keyDatasetFormat decodeFilterObjectInto
      zeroFilterObject = Except.ok fo)
    (hret : readJSONTagValue tagging keyIndexRetention decodeRetentionInto
      zeroRetentionObject = Except.ok ro) :
    mapBucketTaggingToResponse tagging = Except.ok (assembledResponse tagging fo s ro)
    ∧ (assembledResponse tagging fo s ro).FilterJSON = s := by
  have hrw : rewritePredicate s = Except.ok s := by
    simp [rewritePredicate, hnop]
  exact ⟨mapBucketTagging_ok tagging fo ro s s hfmt hfind hrw hret, rfl⟩

/-- C10 witness: a predicate value that is not even valid JSON (and has
no needle) is accepted without error and returned verbatim. -/
theorem predicate_verbatim_without_needle_witness :
    parseJson c10Text = none
    ∧ mapBucketTaggingToResponse [(keyPredicate, c10Text)]
        = Except.ok (assembledResponse [(keyPredicate, c10Text)] zeroFilterObject
            c10Text zeroRetentionObject)
    ∧ (assembledResponse [(keyPredicate, c10Text)] zeroFilterObject c10Text
        zeroRetentionObject).FilterJSON = c10Text :=
  ⟨rfl, predicate_verbatim_without_needle [(keyPredicate, c10Text)] c10Text
    zeroFilterObject zeroRetentionObject rfl rfl rfl rfl⟩

end ChaosSearch
